import Mathlib

/-!
Shallow embedding of the powermeal-ai-choice repository (Rust).

Source files: src/main.rs, src/serde.rs, src/preferences.rs, src/ai.rs,
src/api.rs.  Pure data manipulation is translated directly; network calls,
JSON parsing and interactive prompts are passed in as explicit parameters
(their results), so every function here is a total Lean function over the
same data the Rust code manipulates.  `chrono` dates (`NaiveDate`,
`DateTime<Local>`) are modelled as `Int` day numbers: the code never uses
anything beyond ordering, equality and adding whole days.  Rust panics
(`unwrap`, `expect`, slice indexing) are modelled as `Option`/`Except`
failure values, clearly distinguished from `eyre` errors where needed.
-/

namespace Powermeal

/-- chrono::NaiveDate, modelled as a day number. -/
abbrev NaiveDate := Int

/-! ## Data model (src/serde.rs, src/ai.rs) -/

/-- serde.rs `Dish`: `{ "@id": id }`. -/
structure Dish where
  id : String
deriving DecidableEq, Repr

/-- The ingredient record returned by `fetch_ingredients` (referenced from
main.rs/ai.rs as `DishSizeIngredients`, carrying an ingredient list that
ai.rs reads as `i.ingredients`). -/
structure DishSizeIngredients where
  ingredients : List String
deriving DecidableEq, Repr

/-- serde.rs `MenuDietOption`: one selectable dish option.  main.rs treats
`ingredients` as an `Option` (lazy hydration: `option.ingredients.is_none()`
/ `option.ingredients = Some(..)`) and reads `option.dish_size_id` when
fetching, so those are the field types embedded here. -/
structure MenuDietOption where
  name : String
  ingredients : Option DishSizeIngredients
  enabled : Bool
  dish : Dish
  dish_size_id : Int
deriving DecidableEq, Repr

/-- serde.rs `MealType`. -/
structure MealType where
  name : String
deriving DecidableEq, Repr

/-- serde.rs `DishSize`: carries the dish item's configured default dish. -/
structure DishSize where
  dish : Dish
deriving DecidableEq, Repr

/-- serde.rs `DishItem`: one meal slot with its option list. -/
structure DishItem where
  id : String
  options : List MenuDietOption
  meal_type : MealType
  dish_size : DishSize
deriving DecidableEq, Repr

/-- serde.rs `DietElements` (the `hydra:member` wrapper). -/
structure DietElements where
  members : List DishItem
deriving DecidableEq, Repr

/-- serde.rs `CalendarDayItems`: the Day Bundle. -/
structure CalendarDayItems where
  diet_elements : DietElements
deriving DecidableEq, Repr

/-- ai.rs `UserAdjustment`.  `from` and `to` clash with Lean tokens, hence
the guillemets; the fields are the Rust fields `from` and `to`. -/
structure UserAdjustment where
  «from» : String
  «to» : String
  reason : Option String
  date : NaiveDate
deriving DecidableEq, Repr

/-- serde.rs `ChangeMenuItem`. -/
structure ChangeMenuItem where
  dish : String
  dish_item : String
deriving DecidableEq, Repr

/-- ai.rs `ResponseItem`: the oracle's answer for one dish item.
`analysis` is a map dish-id → free text (HashMap modelled as an
association list); it is only printed, never branched on. -/
structure ResponseItem where
  dish_id : String
  reason : String
  analysis : List (String × String)
deriving DecidableEq, Repr

/-- ai.rs `AiResponse`: `selections` is a HashMap dish-item-id →
ResponseItem, modelled as an association list with unique keys looked up
via `List.lookup`. -/
structure AiResponse where
  reasoning : List String
  selections : List (String × ResponseItem)
deriving DecidableEq, Repr

/-- ai.rs `AiMenuDietOption`: the reduced option shape sent to the oracle. -/
structure AiMenuDietOption where
  name : String
  ingredients : List String
  id : String
deriving DecidableEq, Repr

/-- serde.rs `Diet`: delivery date range.  The `DateTime<FixedOffset>`
bounds are modelled as day numbers. -/
structure Diet where
  id : Int
  first_delivery_date : Int
  last_delivery_date : Int
deriving DecidableEq, Repr

/-- serde.rs `DietsList`. -/
structure DietsList where
  members : List Diet
deriving DecidableEq, Repr

/-- serde.rs `DietDayState`. -/
inductive DietDayState where
  | NoDiet
  | Delivered
  | CannotChange
  | AvailableToSelect
  | WithoutMenu
deriving DecidableEq, Repr

/-- serde.rs `DietCalendarDay`. -/
structure DietCalendarDay where
  state : DietDayState
deriving DecidableEq, Repr

/-- serde.rs `Calendar`: `days` is a `HashMap<NaiveDate, DietCalendarDay>`,
modelled as an association list (iteration order is irrelevant because the
only consumer sorts the collected dates). -/
structure Calendar where
  days : List (NaiveDate × DietCalendarDay)
deriving DecidableEq, Repr

/-- preferences.rs `Preferences`: the file-backed record. -/
structure Preferences where
  adjustments : List UserAdjustment
  last_day_selected : Option NaiveDate
  token : Option String
deriving DecidableEq, Repr

/-! ## serde.rs methods -/

/-- serde.rs `DishItem::get_dish`: first option with the given dish id
(searches the full option list). -/
def DishItem.get_dish (d : DishItem) (dish_id : String) : Option MenuDietOption :=
  d.options.find? (fun option => option.dish.id == dish_id)

/-- serde.rs `DishItem::get_selected_option`: the first option whose dish id
equals the dish item's configured default (`dish_size.dish.id`); searches
the full option list, enabled or not. -/
def DishItem.get_selected_option (d : DishItem) : Option MenuDietOption :=
  d.options.find? (fun option => option.dish.id == d.dish_size.dish.id)

/-- serde.rs `DishItem::options()`: the enabled-option view.  The Rust
method shares its name with the `options` field; here it is `options_view`. -/
def DishItem.options_view (d : DishItem) : List MenuDietOption :=
  d.options.filter (fun option => option.enabled)

/-- serde.rs `CalendarDayItems::get_dish_item`. -/
def CalendarDayItems.get_dish_item (c : CalendarDayItems) (dish_item_id : String) :
    Option DishItem :=
  c.diet_elements.members.find? (fun dish_item => dish_item.id == dish_item_id)

/-- serde.rs `CalendarDayItems::get_dish`. -/
def CalendarDayItems.get_dish (c : CalendarDayItems) (dish_item_id dish_id : String) :
    Option MenuDietOption :=
  (c.get_dish_item dish_item_id).bind (fun dish_item =>
    dish_item.options.find? (fun option => option.dish.id == dish_id))

/-- serde.rs `DietsList::diet_for_date`. -/
def DietsList.diet_for_date (l : DietsList) (date : Int) : Option Diet :=
  l.members.find? (fun diet =>
    decide (diet.first_delivery_date ≤ date) && decide (date ≤ diet.last_delivery_date))

/-- serde.rs `DietsList::diets_in_time_range`. -/
def DietsList.diets_in_time_range (l : DietsList) (fromDay toDay : Int) : List Diet :=
  l.members.filter (fun diet =>
    decide (diet.first_delivery_date ≤ toDay) && decide (fromDay ≤ diet.last_delivery_date))

/-! ## preferences.rs -/

/-- preferences.rs `Preferences::add_new_preferences`, as the pure
transformation it performs on the stored adjustment list: extend with the
new batch, then drop the oldest entries beyond the 100-entry cap. -/
def add_new_preferences (adjustments adjustment : List UserAdjustment) :
    List UserAdjustment :=
  let combined := adjustments ++ adjustment
  if combined.length > 100 then combined.drop (combined.length - 100) else combined

/-- preferences.rs `Preferences::set_next_day_to_check`. -/
def set_next_day_to_check (p : Preferences) (date : NaiveDate) : Preferences :=
  { p with last_day_selected := some date }

/-! ## Rust iterator helpers -/

/-- Rust `Iterator::position`: index of the first element satisfying the
predicate, `none` otherwise. -/
def position (p : α → Bool) : List α → Option Nat
  | [] => none
  | a :: l => if p a then some 0 else (position p l).map (· + 1)

/-! ## main.rs: Day Discovery -/

/-- The dates collected by `days_available_to_select` before sorting: for
every diet overlapping the 14-day window starting at `next_day`, every
calendar day whose state is `AvailableToSelect`.  `fetch_cal` stands for
`fetch_calendar` (the remote call), keyed by diet id. -/
def collected_open_days (next_day : Int) (diets : DietsList)
    (fetch_cal : Int → Calendar) : List Int :=
  (diets.diets_in_time_range next_day (next_day + 14)).flatMap (fun diet =>
    ((fetch_cal diet.id).days.filter
      (fun p => p.2.state == DietDayState.AvailableToSelect)).map Prod.fst)

/-- main.rs `days_available_to_select`: collect the open days of every diet
overlapping the window, then sort ascending (`sort_unstable`; on a linear
order every correct sort of the same multiset yields the same list, so
`insertionSort` embeds it exactly).  No deduplication is performed. -/
def days_available_to_select (next_day : Int) (diets : DietsList)
    (fetch_cal : Int → Calendar) : List Int :=
  List.insertionSort (· ≤ ·) (collected_open_days next_day diets fetch_cal)

/-! ## main.rs: lazy ingredient hydration -/

/-- The body of the hydration loop for one option: an option missing
ingredient data triggers a fetch (`fetch_ingredients`, here the parameter
`fetch`, keyed by `dish_size_id`); a fetch failure aborts with the wrapped
error (`wrap_err("while fetching ingredients")`).  The second component
records the `dish_size_id` of the fetch, if one was performed. -/
def hydrate_option (fetch : Int → Except String DishSizeIngredients)
    (option : MenuDietOption) : Except String (MenuDietOption × List Int) :=
  if option.ingredients = none then
    match fetch option.dish_size_id with
    | .error e => .error ("while fetching ingredients: " ++ e)
    | .ok ingredients =>
      .ok ({ option with ingredients := some ingredients }, [option.dish_size_id])
  else .ok (option, [])

/-- Hydrate one option list in order, accumulating the fetch log. -/
def hydrate_options (fetch : Int → Except String DishSizeIngredients) :
    List MenuDietOption → Except String (List MenuDietOption × List Int)
  | [] => .ok ([], [])
  | option :: rest =>
    match hydrate_option fetch option with
    | .error e => .error e
    | .ok (option', log) =>
      match hydrate_options fetch rest with
      | .error e => .error e
      | .ok (rest', log') => .ok (option' :: rest', log ++ log')

/-- Hydrate every dish item of a day in order. -/
def hydrate_items (fetch : Int → Except String DishSizeIngredients) :
    List DishItem → Except String (List DishItem × List Int)
  | [] => .ok ([], [])
  | item :: rest =>
    match hydrate_options fetch item.options with
    | .error e => .error e
    | .ok (options', log) =>
      match hydrate_items fetch rest with
      | .error e => .error e
      | .ok (rest', log') => .ok ({ item with options := options' } :: rest', log ++ log')

/-- main.rs `get_diet_with_ingredients`: fetch the day (`get_diet`, passed
in as its result `day`), then walk EVERY option of EVERY dish item — the
loop is over the `options` field, not the enabled `options()` view — and
fetch ingredients for each option whose `ingredients` is `None`.  Returns
the hydrated day together with the ordered list of `dish_size_id`s fetched
(the network calls performed). -/
def get_diet_with_ingredients (fetch : Int → Except String DishSizeIngredients)
    (day : CalendarDayItems) : Except String (CalendarDayItems × List Int) :=
  match hydrate_items fetch day.diet_elements.members with
  | .error e => .error e
  | .ok (members', log) => .ok (⟨⟨members'⟩⟩, log)

/-! ## main.rs: the per-dish-item decision step of `select_dishes` -/

/-- The "currently selected" dish id used by `select_dishes` (main.rs lines
352–355): `get_selected_option().map(|x| x.dish.id).unwrap_or_default()`,
the empty string when no option matches the configured default. -/
def selected_dish_id (d : DishItem) : String :=
  ((d.get_selected_option).map (fun x => x.dish.id)).getD ""

/-- The body of the `select_dishes` loop for one dish item (main.rs lines
300–368), given the oracle's `ResponseItem` for the item, the index `sel`
the user picked in the enabled-option selector, and the free-text answer
`expl` to the "Why?" prompt.  Returns `none` where the Rust code panics
(`unwrap` on a failed `position`, out-of-range indexing), otherwise the
recorded `UserAdjustment` (if any) and `ChangeMenuItem` (if any). -/
def process_dish_item (d : DishItem) (ai : ResponseItem) (sel : Nat)
    (expl : String) (date : NaiveDate) :
    Option (Option UserAdjustment × Option ChangeMenuItem) :=
  match position (fun x => x.dish.id == ai.dish_id) d.options_view with
  | none => none
  | some ai_selected =>
    match (if sel ≠ ai_selected then
        match d.options_view[sel]? with
        | none => none
        | some chosen =>
          match d.options_view[ai_selected]? with
          | none => none
          | some ai_option =>
            some (some { «from» := ai_option.name, «to» := chosen.name,
                         reason := if expl = "" then none else some expl,
                         date := date })
      else some none) with
    | none => none
    | some adj =>
      match position (fun x => x.dish.id == selected_dish_id d) d.options_view with
      | none => none
      | some current =>
        if sel ≠ current then
          match d.options_view[sel]? with
          | none => none
          | some chosen => some (adj, some { dish := chosen.dish.id, dish_item := d.id })
        else some (adj, none)

/-- main.rs `select_dishes`: loop over the day's dish items in order,
looking up the oracle's selection for each (`selections.get(..).unwrap()` —
a missing entry panics) and running the per-item step.  User interaction is
passed in as `userSel` (selector index per dish-item id) and `userWhy`
(free-text answer per dish-item id).  Returns the accumulated user
adjustments and menu-change items, or `none` where the Rust code panics. -/
def select_dishes (items : List DishItem) (date : NaiveDate)
    (ai_result : AiResponse) (userSel : String → Nat) (userWhy : String → String) :
    Option (List UserAdjustment × List ChangeMenuItem) :=
  match items with
  | [] => some ([], [])
  | d :: rest =>
    match ai_result.selections.lookup d.id with
    | none => none
    | some ai =>
      match process_dish_item d ai (userSel d.id) (userWhy d.id) date with
      | none => none
      | some (adj, chg) =>
        match select_dishes rest date ai_result userSel userWhy with
        | none => none
        | some (adjs, chgs) => some (adj.toList ++ adjs, chg.toList ++ chgs)

/-! ## ai.rs: the Recommendation Oracle Adapter -/

/-- The reduced option shape ai.rs builds for one `MenuDietOption`
(name, flattened ingredient list, dish id). -/
def to_ai_option (dish : MenuDietOption) : AiMenuDietOption :=
  { name := dish.name,
    ingredients := ((dish.ingredients).map (fun i => i.ingredients)).getD [],
    id := dish.dish.id }

/-- ai.rs `select_dish`, request side, lines 152–159: the selected option of
every dish item of one historical day —
`get_selected_option().expect("No selected option")` panics (`none` here)
when a dish item has no selected option. -/
def selected_ai_options : List DishItem → Option (List AiMenuDietOption)
  | [] => some []
  | dish_item :: rest =>
    match dish_item.get_selected_option with
    | none => none
    | some dish =>
      match selected_ai_options rest with
      | none => none
      | some rest' => some (to_ai_option dish :: rest')

/-- ai.rs `select_dish`, request side, lines 151–160: map each historical
day to the options that were actually selected that day. -/
def history_choices (menus : List (String × CalendarDayItems)) :
    Option (List (String × List AiMenuDietOption)) :=
  match menus with
  | [] => some []
  | (day, menu) :: rest =>
    match selected_ai_options menu.diet_elements.members with
    | none => none
    | some choices =>
      match history_choices rest with
      | none => none
      | some rest' => some ((day, choices) :: rest')

/-- The shape of an OpenAI chat-completion message, as read by ai.rs
`select_dish` (lines 166–194): `response.choices.first()` then
`choice.message.content`. -/
structure ChatMessage where
  content : Option String
deriving DecidableEq, Repr

/-- One chat-completion choice. -/
structure ChatChoice where
  message : ChatMessage
deriving DecidableEq, Repr

/-- The chat-completion response. -/
structure ChatResponse where
  choices : List ChatChoice
deriving DecidableEq, Repr

/-- ai.rs `select_dish`, response side (lines 166–194): take the first
choice (`bail!` if none), its content (`bail!` if none), and deserialize it
(`serde_json::from_str`, passed in as `parse`; a parse failure is wrapped
with "in ai response").  `dish_items` is the submitted request — note the
code never consults it here: no completeness check is made against the
parsed `selections` mapping. -/
def select_dish (dish_items : List DishItem)
    (parse : String → Except String AiResponse) (response : ChatResponse) :
    Except String AiResponse :=
  match response.choices.head? with
  | some choice =>
    match choice.message.content with
    | some content =>
      match parse content with
      | .ok r => .ok r
      | .error e => .error ("in ai response: " ++ e)
    | none => .error "No content in response from AI"
  | none => .error "No response from AI"

/-! ## api.rs: the Remote Diet Service Client -/

/-- An HTTP response as reqwest hands it back: a status code and (via
`.text()`) a body. -/
structure HttpResponse where
  status : Nat
  body : String
deriving DecidableEq, Repr

/-- api.rs `get_diet` (lines 22–43): one `send()` (its outcome passed in:
transport failure or a response), then parse the body as JSON (`parse`,
standing for `serde_json::from_str`).  The status code is never inspected;
there is no retry loop and no sleep anywhere in the function. -/
def get_diet (send : Except String HttpResponse)
    (parse : String → Except String CalendarDayItems) :
    Except String CalendarDayItems :=
  match send with
  | .error e => .error ("in diet http request: " ++ e)
  | .ok response =>
    match parse response.body with
    | .ok v => .ok v
    | .error e => .error ("while parsing json: " ++ e)

/-- api.rs `fetch_calendar` (lines 62–81): identical single-attempt shape —
one `send()`, then the body is parsed as a `Calendar`
(`serde_json::from_str`, passed in as `parse`).  The status code is never
inspected; there is no retry loop and no sleep in the function. -/
def fetch_calendar (send : Except String HttpResponse)
    (parse : String → Except String Calendar) : Except String Calendar :=
  match send with
  | .error e => .error ("in calendar http request: " ++ e)
  | .ok response =>
    match parse response.body with
    | .ok v => .ok v
    | .error e => .error ("while parsing json: " ++ e)

/-! ## main.rs: confirmation steps and the per-day workflow -/

/-- main.rs `confirm_preferences_save`: show the adjustments, ask for
confirmation (`confirm` is the dialog's outcome: an interaction error, or
the user's yes/no), and append to the store only on yes.  Returns the new
adjustment store contents. -/
def confirm_preferences_save (stored : List UserAdjustment)
    (new_preferences : List UserAdjustment) (confirm : Except String Bool) :
    Except String (List UserAdjustment) :=
  match confirm with
  | .error e => .error e
  | .ok true => .ok (add_new_preferences stored new_preferences)
  | .ok false => .ok stored

/-- The rendering loop of main.rs `confirm_menu_change` (lines 227–244):
each change item's dish item must be found (`ok_or_eyre`) and its selected
option must exist (`unwrap` — a panic, modelled as an error value too since
it equally prevents completion). -/
def render_menu_changes (day : CalendarDayItems) :
    List ChangeMenuItem → Except String Unit
  | [] => .ok ()
  | item :: rest =>
    match day.get_dish_item item.dish_item with
    | none => .error "dish item not found"
    | some dish_item =>
      match dish_item.get_selected_option with
      | none => .error "panic: called Option::unwrap on a None value"
      | some _ => render_menu_changes day rest

/-- main.rs `confirm_menu_change`: render the diff, ask for confirmation,
and submit (`change_menu`, outcome passed in as `submit`) only on yes. -/
def confirm_menu_change (day : CalendarDayItems) (changes : List ChangeMenuItem)
    (confirm : Except String Bool) (submit : Except String Unit) :
    Except String Unit :=
  match render_menu_changes day changes with
  | .error e => .error e
  | .ok () =>
    match confirm with
    | .error e => .error e
    | .ok true => submit
    | .ok false => .ok ()

/-- main.rs `select_dishes_for_day` (lines 141–192), as a transformation of
the preference store.  Network and oracle outcomes are passed in:
`fetch_day` (`get_diet_with_ingredients` for the day), `history`
(`fetch_historical_orders`), `oracle` (`ai::select_dish` on the fetched
history), the two confirmation dialogs, and `submit` (`change_menu`).  On
every error path the store is untouched; on success the store's
`last_day_selected` is set to `date + 1` (`checked_add_days(Days::new(1))`)
after the optional preference append. -/
def select_dishes_for_day (prefs : Preferences) (date : NaiveDate)
    (diets : DietsList)
    (fetch_day : Except String CalendarDayItems)
    (history : Except String (List (String × CalendarDayItems)))
    (oracle : List (String × CalendarDayItems) → Except String AiResponse)
    (userSel : String → Nat) (userWhy : String → String)
    (confirm_prefs : Except String Bool) (confirm_menu : Except String Bool)
    (submit : Except String Unit) : Except String Preferences :=
  match diets.diet_for_date date with
  | none => .error "no diet for date"
  | some _diet =>
    match fetch_day with
    | .error e => .error e
    | .ok calendar_day_items =>
      match history with
      | .error e => .error e
      | .ok last_days_choices =>
        match oracle last_days_choices with
        | .error e => .error e
        | .ok result =>
          match select_dishes calendar_day_items.diet_elements.members date result
              userSel userWhy with
          | none => .error "panic in select_dishes"
          | some (new_preferences, menu_changes) =>
            match (if new_preferences ≠ [] then
                confirm_preferences_save prefs.adjustments new_preferences confirm_prefs
              else .ok prefs.adjustments) with
            | .error e => .error e
            | .ok adjustments' =>
              match (if menu_changes ≠ [] then
                  confirm_menu_change calendar_day_items menu_changes confirm_menu submit
                else .ok ()) with
              | .error e => .error e
              | .ok () =>
                .ok (set_next_day_to_check { prefs with adjustments := adjustments' }
                      (date + 1))

/-! ## Concrete data used by the counterexamples and witnesses -/

/-- An enabled option. -/
def c7_option : MenuDietOption :=
  { name := "Option A", ingredients := some ⟨["rice"]⟩,
    enabled := true, dish := ⟨"dish-A"⟩, dish_size_id := 1 }

/-- A dish item whose options are all enabled: its enabled-option view is
the whole option list, so the view is NOT a strict (proper) subset. -/
def c7_item : DishItem :=
  { id := "item-1",
    options := [c7_option],
    meal_type := ⟨"lunch"⟩,
    dish_size := ⟨⟨"dish-A"⟩⟩ }

/-- Two diets with identical ranges both reporting day 5 as open. -/
def c4_diets : DietsList := ⟨[⟨1, 0, 20⟩, ⟨2, 0, 20⟩]⟩

/-- Both diets' calendars mark day 5 open for selection. -/
def c4_cal : Int → Calendar :=
  fun _ => ⟨[(5, ⟨DietDayState.AvailableToSelect⟩)]⟩

/-- One diet, one open day: discovery on it is strictly sorted. -/
def c4w_diets : DietsList := ⟨[⟨1, 0, 20⟩]⟩

/-- This calendar marks days 7 and 3 open. -/
def c4w_cal : Int → Calendar :=
  fun _ => ⟨[(7, ⟨DietDayState.AvailableToSelect⟩), (3, ⟨DietDayState.AvailableToSelect⟩)]⟩

/-- A dish item carrying only an id, as submitted in a request. -/
def c3_item (n : String) : DishItem :=
  { id := n, options := [], meal_type := ⟨"meal"⟩, dish_size := ⟨⟨"d"⟩⟩ }

/-- A 3-item request. -/
def c3_items : List DishItem := [c3_item "i1", c3_item "i2", c3_item "i3"]

/-- An oracle answer for one dish item. -/
def c3_resp_item : ResponseItem := ⟨"d1", "sounds tasty", []⟩

/-- A parsed response whose selections mapping covers only "i1" and "i2". -/
def c3_response : AiResponse :=
  ⟨["some reasoning"], [("i1", c3_resp_item), ("i2", c3_resp_item)]⟩

/-- `serde_json::from_str` on the 2-entry selections JSON: deserializing
into a `HashMap` succeeds on any well-formed mapping, with no completeness
check, so the parse yields `c3_response`. -/
def c3_parse : String → Except String AiResponse := fun _ => .ok c3_response

/-- A chat response with one choice carrying content. -/
def c3_chat : ChatResponse := ⟨[⟨⟨some "the json body"⟩⟩]⟩

/-- A 429 rate-limit response with its plain-text body. -/
def rate_limited : HttpResponse := ⟨429, "Too Many Requests"⟩

/-- `serde_json::from_str::<CalendarDayItems>` on the bodies used here: the
plain-text rate-limit body is not JSON and fails to parse. -/
def c9_parse : String → Except String CalendarDayItems :=
  fun s => if s = "Too Many Requests"
    then .error "expected value at line 1 column 1"
    else .ok ⟨⟨[]⟩⟩

/-- `serde_json::from_str::<Calendar>` on the bodies used here: the
plain-text rate-limit body is not JSON and fails to parse. -/
def c9_cal_parse : String → Except String Calendar :=
  fun s => if s = "Too Many Requests"
    then .error "expected value at line 1 column 1"
    else .ok ⟨[]⟩

/-- The `dish_size_id`s of every option of the day with missing ingredient
data, enabled or not, in traversal order. -/
def missing_dish_sizes (day : CalendarDayItems) : List Int :=
  day.diet_elements.members.flatMap (fun item =>
    (item.options.filter (fun o => decide (o.ingredients = none))).map
      (fun o => o.dish_size_id))

/-- A disabled option with missing ingredient data. -/
def c8_option : MenuDietOption :=
  { name := "Dead dish", ingredients := none, enabled := false,
    dish := ⟨"dish-X"⟩, dish_size_id := 42 }

/-- A day whose single dish item carries only the disabled, un-hydrated
option. -/
def c8_day : CalendarDayItems :=
  ⟨⟨[{ id := "item-8", options := [c8_option], meal_type := ⟨"dinner"⟩,
       dish_size := ⟨⟨"dish-X"⟩⟩ }]⟩⟩

/-- The ingredients service answers every lookup. -/
def c8_fetch : Int → Except String DishSizeIngredients := fun _ => .ok ⟨["water"]⟩

/-- The day above after hydration: the disabled option now carries the
fetched ingredients. -/
def c8_hydrated : CalendarDayItems :=
  ⟨⟨[{ id := "item-8",
       options := [{ c8_option with ingredients := some ⟨["water"]⟩ }],
       meal_type := ⟨"dinner"⟩,
       dish_size := ⟨⟨"dish-X"⟩⟩ }]⟩⟩

/-- A dish item whose only (enabled) option does not match the configured
default dish id "Z": no currently-selected option exists. -/
def c10_item : DishItem :=
  { id := "item-x",
    options := [{ name := "Only A", ingredients := none, enabled := true,
                  dish := ⟨"A"⟩, dish_size_id := 7 }],
    meal_type := ⟨"breakfast"⟩,
    dish_size := ⟨⟨"Z"⟩⟩ }

/-- An oracle response recommending the only option of `c10_item`. -/
def c10_ai : AiResponse := ⟨[], [("item-x", ⟨"A", "only choice", []⟩)]⟩

/-- A historical day containing the selected-option-less dish item. -/
def c10_menu : CalendarDayItems := ⟨⟨[c10_item]⟩⟩

/-- The spec's running scenario: option A is currently selected (it is the
configured default), option B is the oracle's recommendation; both
enabled, distinct dish ids. -/
def w1_item : DishItem :=
  { id := "item-1",
    options := [{ name := "Meal A", ingredients := some ⟨["a"]⟩, enabled := true,
                  dish := ⟨"A"⟩, dish_size_id := 1 },
                { name := "Meal B", ingredients := some ⟨["b"]⟩, enabled := true,
                  dish := ⟨"B"⟩, dish_size_id := 2 }],
    meal_type := ⟨"lunch"⟩,
    dish_size := ⟨⟨"A"⟩⟩ }

/-- The oracle recommends option B for `w1_item`. -/
def w1_ai : ResponseItem := ⟨"B", "variety", []⟩

/-- One diet covering the processed day. -/
def c6_diets : DietsList := ⟨[⟨1, 0, 20⟩]⟩

/-- The processed day's bundle: the A/B dish item. -/
def c6_day : CalendarDayItems := ⟨⟨[w1_item]⟩⟩

/-- The oracle recommends B for the single dish item. -/
def c6_ai : AiResponse := ⟨[], [("item-1", ⟨"B", "variety", []⟩)]⟩

/-! ## Helper lemmas -/

theorem position_eq_some {p : α → Bool} {l : List α} {i : Nat}
    (h : position p l = some i) : ∃ hi : i < l.length, p (l.get ⟨i, hi⟩) = true := by
  induction l generalizing i with
  | nil => simp [position] at h
  | cons a t ih =>
    by_cases hp : p a
    · simp [position, hp] at h
      exact h ▸ ⟨Nat.succ_pos _, by simpa using hp⟩
    · simp [position, hp, Option.map_eq_some'] at h
      obtain ⟨j, hj, rfl⟩ := h
      obtain ⟨hlt, hpj⟩ := ih hj
      exact ⟨Nat.succ_lt_succ hlt, by simpa using hpj⟩

theorem position_eq_none {p : α → Bool} {l : List α}
    (h : ∀ a ∈ l, p a = false) : position p l = none := by
  induction l with
  | nil => rfl
  | cons a t ih =>
    simp [position, h a (List.mem_cons_self a t)]
    exact ih (fun x hx => h x (List.mem_cons_of_mem a hx))

theorem options_view_sublist (d : DishItem) :
    List.Sublist d.options_view d.options :=
  List.filter_sublist d.options

theorem options_view_ids_nodup (d : DishItem)
    (h : (d.options.map (fun o => o.dish.id)).Nodup) :
    ((d.options_view).map (fun o => o.dish.id)).Nodup :=
  h.sublist ((options_view_sublist d).map (fun o => o.dish.id))

theorem dish_id_inj {l : List MenuDietOption}
    (h : (l.map (fun o => o.dish.id)).Nodup) {i j : Nat}
    (hi : i < l.length) (hj : j < l.length)
    (he : (l.get ⟨i, hi⟩).dish.id = (l.get ⟨j, hj⟩).dish.id) : i = j := by
  have hi' : i < (l.map (fun o => o.dish.id)).length := by simpa using hi
  have hj' : j < (l.map (fun o => o.dish.id)).length := by simpa using hj
  have hmap : (l.map (fun o => o.dish.id)).get ⟨i, hi'⟩ =
      (l.map (fun o => o.dish.id)).get ⟨j, hj'⟩ := by
    simpa using he
  exact congrArg Fin.val (h.get_inj_iff.mp hmap)

/-! ## C5: bounded adjustment history -/

/-- C5: after `add_new_preferences`, the stored adjustment history is a
suffix of (old history ++ appended batch) — i.e. exactly the most recently
appended entries, in their original order, oldest dropped first — and its
length is min(total, 100), in particular at most 100. -/
theorem add_new_preferences_bounded_suffix
    (adjustments adjustment : List UserAdjustment) :
    (add_new_preferences adjustments adjustment).length =
        min (adjustments ++ adjustment).length 100
    ∧ List.IsSuffix (add_new_preferences adjustments adjustment)
        (adjustments ++ adjustment) := by
  unfold add_new_preferences
  by_cases h : (adjustments ++ adjustment).length > 100
  · simp only [h, if_true]
    refine ⟨?_, List.drop_suffix _ _⟩
    simp only [List.length_drop]
    omega
  · simp only [h, if_false]
    exact ⟨by omega, List.suffix_refl _⟩

/-! ## C7: the enabled-option view -/

/-- C7 counterexample: `options()` is not in general a STRICT subset of the
full option list — for a dish item all of whose options are enabled, the
view equals the full list, refuting "strict subset" at this input. -/
theorem options_view_not_strict :
    ¬ (List.Sublist c7_item.options_view c7_item.options ∧
        c7_item.options_view ≠ c7_item.options) :=
  fun h => h.2 rfl

/-- C7 (amended): for every dish item, `options()` is a sublist of the full
option list (hence a subset preserving relative order) and contains no
option whose enabled flag is false; it need not be a proper subset. -/
theorem options_view_sublist_enabled (d : DishItem) :
    List.Sublist d.options_view d.options ∧
      ∀ o ∈ d.options_view, o.enabled = true := by
  refine ⟨options_view_sublist d, fun o ho => ?_⟩
  simpa using (List.mem_filter.mp ho).2

/-! ## C4: Day Discovery ordering -/

/-- C4 counterexample: when two diets' ranges overlap the same open day,
`days_available_to_select` returns that day twice — the output `[5, 5]` is
neither duplicate-free nor strictly ascending. -/
theorem days_available_duplicate :
    days_available_to_select 0 c4_diets c4_cal = [5, 5] ∧
      ¬ List.Sorted (fun a b : Int => a < b)
          (days_available_to_select 0 c4_diets c4_cal) := by
  constructor
  · rfl
  · intro hs
    have h5 : (5 : Int) < 5 := by
      have : days_available_to_select 0 c4_diets c4_cal = [5, 5] := rfl
      rw [this] at hs
      exact List.rel_of_sorted_cons hs 5 (List.mem_singleton.mpr rfl)
    exact absurd h5 (by omega)

/-- C4 (amended): `days_available_to_select` always returns the collected
open days in ascending (non-strict) order; when the collected days are
pairwise distinct — as under the single-diet-per-day invariant — the result
is strictly ascending, hence duplicate-free.  A day reported open by
several overlapping diets, however, appears once per diet. -/
theorem days_available_to_select_sorted (next_day : Int) (diets : DietsList)
    (fetch_cal : Int → Calendar) :
    List.Sorted (fun a b : Int => a ≤ b)
        (days_available_to_select next_day diets fetch_cal)
    ∧ ((collected_open_days next_day diets fetch_cal).Nodup →
        List.Sorted (fun a b : Int => a < b)
          (days_available_to_select next_day diets fetch_cal)) := by
  have hs : List.Sorted (fun a b : Int => a ≤ b)
      (days_available_to_select next_day diets fetch_cal) :=
    List.sorted_insertionSort _ _
  refine ⟨hs, fun hnd => hs.lt_of_le ?_⟩
  exact (List.perm_insertionSort (fun a b : Int => a ≤ b)
    (collected_open_days next_day diets fetch_cal)).nodup_iff.mpr hnd

/-- Witness for C4 (amended): on a concrete single-diet input with distinct
open days the result is strictly ascending. -/
theorem days_available_to_select_sorted_witness :
    List.Sorted (fun a b : Int => a < b)
      (days_available_to_select 0 c4w_diets c4w_cal) :=
  (days_available_to_select_sorted 0 c4w_diets c4w_cal).2 (by decide)

/-! ## C3: oracle response validation -/

/-- C3 counterexample: a 3-item request answered by a well-formed response
whose selections mapping omits submitted id "i3" is returned as SUCCESS by
`select_dish` — no fatal error is raised for the omission (the panic comes
only later, in `select_dishes`). -/
theorem select_dish_no_completeness_check :
    select_dish c3_items c3_parse c3_chat = Except.ok c3_response
    ∧ c3_items.map (fun d => d.id) = ["i1", "i2", "i3"]
    ∧ c3_response.selections.lookup "i3" = none :=
  ⟨rfl, rfl, rfl⟩

/-- C3 (amended): `select_dish` fails exactly when the response has no
choice, the choice has no content, or the content fails to parse; it never
inspects the submitted dish items, so a selections mapping omitting a
submitted dish-item id is NOT rejected (the missing entry instead panics
later in `select_dishes`, main.rs line 300). -/
theorem select_dish_validation (dish_items dish_items' : List DishItem)
    (parse : String → Except String AiResponse) (response : ChatResponse) :
    select_dish dish_items parse response = select_dish dish_items' parse response
    ∧ ((∃ r, select_dish dish_items parse response = Except.ok r) ↔
        ∃ choice content r, response.choices.head? = some choice ∧
          choice.message.content = some content ∧ parse content = Except.ok r) := by
  refine ⟨rfl, ?_⟩
  unfold select_dish
  cases h1 : response.choices.head? with
  | none => simp
  | some choice =>
    cases h2 : choice.message.content with
    | none => simp [h2]
    | some content =>
      cases h3 : parse content with
      | error e => simp [h2, h3]
      | ok r => simp [h2, h3]

/-- Witness for C3 (amended): at a concrete response whose single choice
carries parseable content, `select_dish` succeeds. -/
theorem select_dish_validation_witness :
    ∃ r, select_dish ([] : List DishItem) c3_parse c3_chat = Except.ok r :=
  (select_dish_validation [] [] c3_parse c3_chat).2.mpr
    ⟨⟨⟨some "the json body"⟩⟩, "the json body", c3_response, rfl, rfl, rfl⟩

/-! ## C9: no rate-limit handling in the client -/

/-- C9 counterexample: neither `get_diet` nor `fetch_calendar` pauses or
retries on a 429-class response — the response body flows straight into
JSON parsing and the rate-limit surfaces to the caller as a fatal error in
both client functions. -/
theorem client_429_surfaces :
    get_diet (Except.ok rate_limited) c9_parse =
      Except.error "while parsing json: expected value at line 1 column 1"
    ∧ fetch_calendar (Except.ok rate_limited) c9_cal_parse =
      Except.error "while parsing json: expected value at line 1 column 1" :=
  ⟨rfl, rfl⟩

/-- C9 (amended): the Remote Diet Service Client performs no rate-limit
handling at all — in both of the claim's client functions, `get_diet` and
`fetch_calendar`, each request is attempted exactly once, the HTTP status
code is never inspected (the result is identical for any two statuses over
the same body), and the only outcomes are the parse of the single response
body or the wrapped transport error. -/
theorem client_no_rate_limit_handling (s s' : Nat) (b : String)
    (parse_diet : String → Except String CalendarDayItems)
    (parse_cal : String → Except String Calendar) (e : String) :
    (get_diet (Except.ok ⟨s, b⟩) parse_diet =
        get_diet (Except.ok ⟨s', b⟩) parse_diet
      ∧ get_diet (Except.error e) parse_diet =
          Except.error ("in diet http request: " ++ e))
    ∧ (fetch_calendar (Except.ok ⟨s, b⟩) parse_cal =
        fetch_calendar (Except.ok ⟨s', b⟩) parse_cal
      ∧ fetch_calendar (Except.error e) parse_cal =
          Except.error ("in calendar http request: " ++ e)) :=
  ⟨⟨rfl, rfl⟩, ⟨rfl, rfl⟩⟩

/-! ## C6: the last-processed date advances on success -/

/-- C6: whenever the day decision workflow completes without a fatal error
— whatever the user answered to the two confirmation dialogs, and whether
or not any change was recorded — the stored last-processed date ends up set
to the processed day plus one. -/
theorem select_dishes_for_day_advances
    (prefs : Preferences) (date : NaiveDate) (diets : DietsList)
    (fetch_day : Except String CalendarDayItems)
    (history : Except String (List (String × CalendarDayItems)))
    (oracle : List (String × CalendarDayItems) → Except String AiResponse)
    (userSel : String → Nat) (userWhy : String → String)
    (confirm_prefs : Except String Bool) (confirm_menu : Except String Bool)
    (submit : Except String Unit) (prefs' : Preferences)
    (h : select_dishes_for_day prefs date diets fetch_day history oracle
        userSel userWhy confirm_prefs confirm_menu submit = Except.ok prefs') :
    prefs'.last_day_selected = some (date + 1) := by
  unfold select_dishes_for_day at h
  repeat' split at h
  all_goals simp_all [set_next_day_to_check]
  all_goals (subst h; rfl)

/-! ## C8: lazy hydration fetches every missing option, enabled or not -/

theorem hydrate_options_ok {fetch : Int → Except String DishSizeIngredients}
    {opts opts' : List MenuDietOption} {log : List Int}
    (h : hydrate_options fetch opts = Except.ok (opts', log)) :
    log = (opts.filter (fun o => decide (o.ingredients = none))).map
        (fun o => o.dish_size_id)
    ∧ ∀ o ∈ opts', o.ingredients ≠ none := by
  induction opts generalizing opts' log with
  | nil =>
    simp only [hydrate_options] at h
    injection h with h
    injection h with h1 h2
    subst h1; subst h2
    exact ⟨rfl, by simp⟩
  | cons o rest ih =>
    simp only [hydrate_options] at h
    by_cases ho : o.ingredients = none
    · cases hf : fetch o.dish_size_id with
      | error e => rw [hydrate_option, if_pos ho, hf] at h; exact absurd h (by simp)
      | ok ing =>
        rw [hydrate_option, if_pos ho, hf] at h
        cases hr : hydrate_options fetch rest with
        | error e => rw [hr] at h; exact absurd h (by simp)
        | ok p =>
          obtain ⟨rest', log'⟩ := p
          rw [hr] at h
          injection h with h
          injection h with h1 h2
          obtain ⟨ihl, ihm⟩ := ih hr
          subst h1; subst h2
          constructor
          · simp [List.filter_cons, ho, ihl]
          · intro x hx
            rcases List.mem_cons.mp hx with hx | hx
            · subst hx; simp
            · exact ihm x hx
    · rw [hydrate_option, if_neg ho] at h
      cases hr : hydrate_options fetch rest with
      | error e => rw [hr] at h; exact absurd h (by simp)
      | ok p =>
        obtain ⟨rest', log'⟩ := p
        rw [hr] at h
        injection h with h
        injection h with h1 h2
        obtain ⟨ihl, ihm⟩ := ih hr
        subst h1; subst h2
        constructor
        · simp [List.filter_cons, ho, ihl]
        · intro x hx
          rcases List.mem_cons.mp hx with hx | hx
          · subst hx; exact ho
          · exact ihm x hx

theorem hydrate_options_error {fetch : Int → Except String DishSizeIngredients}
    {opts : List MenuDietOption}
    (h : ∃ o ∈ opts, o.ingredients = none ∧ ∃ e, fetch o.dish_size_id = Except.error e) :
    ∃ e', hydrate_options fetch opts =
      Except.error ("while fetching ingredients: " ++ e') := by
  induction opts with
  | nil => obtain ⟨o, ho, _⟩ := h; exact absurd ho (List.not_mem_nil o)
  | cons o rest ih =>
    obtain ⟨a, ha, hnone, e, hfe⟩ := h
    rcases List.mem_cons.mp ha with rfl | ha
    · exact ⟨e, by simp [hydrate_options, hydrate_option, hnone, hfe]⟩
    · cases hh : hydrate_option fetch o with
      | error e0 =>
        rw [hydrate_option] at hh
        by_cases ho : o.ingredients = none
        · rw [if_pos ho] at hh
          cases hf : fetch o.dish_size_id with
          | error e1 =>
            rw [hf] at hh
            injection hh with hh
            exact ⟨e1, by simp [hydrate_options, hydrate_option, ho, hf]⟩
          | ok ing => rw [hf] at hh; exact absurd hh (by simp)
        · rw [if_neg ho] at hh; exact absurd hh (by simp)
      | ok p =>
        obtain ⟨e', he'⟩ := ih ⟨a, ha, hnone, e, hfe⟩
        exact ⟨e', by simp [hydrate_options, hh, he']⟩

theorem hydrate_items_ok {fetch : Int → Except String DishSizeIngredients}
    {items items' : List DishItem} {log : List Int}
    (h : hydrate_items fetch items = Except.ok (items', log)) :
    log = items.flatMap (fun item =>
        (item.options.filter (fun o => decide (o.ingredients = none))).map
          (fun o => o.dish_size_id))
    ∧ ∀ item ∈ items', ∀ o ∈ item.options, o.ingredients ≠ none := by
  induction items generalizing items' log with
  | nil =>
    simp only [hydrate_items] at h
    injection h with h
    injection h with h1 h2
    subst h1; subst h2
    exact ⟨rfl, by simp⟩
  | cons item rest ih =>
    simp only [hydrate_items] at h
    cases ho : hydrate_options fetch item.options with
    | error e => rw [ho] at h; exact absurd h (by simp)
    | ok p =>
      obtain ⟨options', log1⟩ := p
      rw [ho] at h
      cases hr : hydrate_items fetch rest with
      | error e => rw [hr] at h; exact absurd h (by simp)
      | ok q =>
        obtain ⟨rest', log2⟩ := q
        rw [hr] at h
        injection h with h
        injection h with h1 h2
        obtain ⟨hol, hom⟩ := hydrate_options_ok ho
        obtain ⟨ihl, ihm⟩ := ih hr
        subst h1; subst h2
        constructor
        · simp [List.flatMap_cons, hol, ihl]
        · intro x hx
          rcases List.mem_cons.mp hx with rfl | hx
          · exact hom
          · exact ihm x hx

theorem hydrate_options_error_shape {fetch : Int → Except String DishSizeIngredients}
    {opts : List MenuDietOption} {e0 : String}
    (h : hydrate_options fetch opts = Except.error e0) :
    ∃ e1, e0 = "while fetching ingredients: " ++ e1 := by
  induction opts with
  | nil => simp [hydrate_options] at h
  | cons x xs ihx =>
    simp only [hydrate_options] at h
    cases hh : hydrate_option fetch x with
    | error e2 =>
      rw [hh] at h
      injection h with h
      rw [hydrate_option] at hh
      by_cases hx : x.ingredients = none
      · rw [if_pos hx] at hh
        cases hf : fetch x.dish_size_id with
        | error e3 =>
          rw [hf] at hh; injection hh with hh; exact ⟨e3, h ▸ hh.symm⟩
        | ok ing => rw [hf] at hh; exact absurd hh (by simp)
      · rw [if_neg hx] at hh; exact absurd hh (by simp)
    | ok p =>
      obtain ⟨x', lg⟩ := p
      rw [hh] at h
      cases hxs : hydrate_options fetch xs with
      | error e2 =>
        rw [hxs] at h; injection h with h; exact ihx (h ▸ hxs)
      | ok q => rw [hxs] at h; exact absurd h (by simp)

theorem hydrate_items_error {fetch : Int → Except String DishSizeIngredients}
    {items : List DishItem}
    (h : ∃ item ∈ items, ∃ o ∈ item.options,
        o.ingredients = none ∧ ∃ e, fetch o.dish_size_id = Except.error e) :
    ∃ e', hydrate_items fetch items =
      Except.error ("while fetching ingredients: " ++ e') := by
  induction items with
  | nil => obtain ⟨item, hi, _⟩ := h; exact absurd hi (List.not_mem_nil item)
  | cons item rest ih =>
    obtain ⟨a, ha, o, hoa, hnone, e, hfe⟩ := h
    rcases List.mem_cons.mp ha with rfl | ha
    · obtain ⟨e', he'⟩ := hydrate_options_error ⟨o, hoa, hnone, e, hfe⟩
      exact ⟨e', by simp [hydrate_items, he']⟩
    · cases ho : hydrate_options fetch item.options with
      | error e0 =>
        obtain ⟨e1, rfl⟩ := hydrate_options_error_shape ho
        exact ⟨e1, by simp [hydrate_items, ho]⟩
      | ok p =>
        obtain ⟨options', log1⟩ := p
        obtain ⟨e', he'⟩ := ih ⟨a, ha, o, hoa, hnone, e, hfe⟩
        exact ⟨e', by simp [hydrate_items, ho, he']⟩

/-- C8 (amended): on success, `get_diet_with_ingredients` performed an
ingredients fetch exactly for every option — enabled or NOT — whose
ingredient data was missing (in traversal order), and the returned day is
fully hydrated; if any missing option's fetch fails, the whole day aborts
with the wrapped "while fetching ingredients" error and no day is
returned. -/
theorem get_diet_with_ingredients_spec
    (fetch : Int → Except String DishSizeIngredients) (day : CalendarDayItems) :
    (∀ day' log, get_diet_with_ingredients fetch day = Except.ok (day', log) →
        log = missing_dish_sizes day
        ∧ ∀ item ∈ day'.diet_elements.members, ∀ o ∈ item.options,
            o.ingredients ≠ none)
    ∧ ((∃ item ∈ day.diet_elements.members, ∃ o ∈ item.options,
          o.ingredients = none ∧ ∃ e, fetch o.dish_size_id = Except.error e) →
        ∃ e', get_diet_with_ingredients fetch day =
          Except.error ("while fetching ingredients: " ++ e')) := by
  constructor
  · intro day' log h
    unfold get_diet_with_ingredients at h
    cases hm : hydrate_items fetch day.diet_elements.members with
    | error e => rw [hm] at h; exact absurd h (by simp)
    | ok p =>
      obtain ⟨members', log'⟩ := p
      rw [hm] at h
      injection h with h
      injection h with h1 h2
      obtain ⟨hl, hmem⟩ := hydrate_items_ok hm
      subst h2
      refine ⟨hl ▸ rfl, ?_⟩
      intro item hitem
      exact hmem item (by rw [← h1] at hitem; exact hitem)
  · intro h
    obtain ⟨e', he'⟩ := hydrate_items_error h
    exact ⟨e', by simp [get_diet_with_ingredients, he']⟩

/-- C8 counterexample: an ingredients fetch IS performed (dish size 42
appears in the fetch log) for an option that is disabled — the claim's
"exactly for every enabled option whose ingredient data is missing" is
refuted, since this day has no enabled option at all. -/
theorem get_diet_with_ingredients_fetches_disabled :
    get_diet_with_ingredients c8_fetch c8_day = Except.ok (c8_hydrated, [42])
    ∧ c8_option.enabled = false
    ∧ ∀ item ∈ c8_day.diet_elements.members, item.options_view = [] := by
  refine ⟨rfl, rfl, ?_⟩
  intro item hitem
  rcases List.mem_cons.mp hitem with rfl | hitem
  · rfl
  · exact absurd hitem (List.not_mem_nil _)

/-- Witness for C8 (amended): at the concrete day above, the success case
of the theorem applies and yields the fetch log `[42]` — exactly the
missing options of the day. -/
theorem get_diet_with_ingredients_spec_witness :
    ([42] : List Int) = missing_dish_sizes c8_day
    ∧ ∀ item ∈ c8_hydrated.diet_elements.members,
        ∀ o ∈ item.options, o.ingredients ≠ none :=
  (get_diet_with_ingredients_spec c8_fetch c8_day).1 c8_hydrated [42] rfl

/-! ## C10: panics when no selected option exists -/

theorem selected_ai_options_none {items : List DishItem}
    (h : ∃ item ∈ items, item.get_selected_option = none) :
    selected_ai_options items = none := by
  induction items with
  | nil => obtain ⟨item, hi, _⟩ := h; exact absurd hi (List.not_mem_nil item)
  | cons item rest ih =>
    obtain ⟨a, ha, hnone⟩ := h
    rcases List.mem_cons.mp ha with rfl | ha
    · simp [selected_ai_options, hnone]
    · cases hs : item.get_selected_option with
      | none => simp [selected_ai_options, hs]
      | some dish => simp [selected_ai_options, hs, ih ⟨a, ha, hnone⟩]

/-- C10: the workflow's totality silently assumes a selected option.  For
the target day, if a dish item's enabled-option view contains no option
matching the currently-selected dish id (the selected option is missing or
disabled), `select_dishes` panics (`unwrap` of a failed `position`) — it
produces no value, rather than an error value; likewise, if any historical
day's dish item has no selected option, the history mapping inside
`select_dish` panics (`expect("No selected option")`). -/
theorem workflow_panics_without_selected_option :
    (∀ (d : DishItem) (rest : List DishItem) (date : NaiveDate)
        (ai_result : AiResponse) (userSel : String → Nat)
        (userWhy : String → String) (ai : ResponseItem) (i : Nat),
        ai_result.selections.lookup d.id = some ai →
        position (fun x => x.dish.id == ai.dish_id) d.options_view = some i →
        userSel d.id = i →
        (∀ o ∈ d.options_view, o.dish.id ≠ selected_dish_id d) →
        select_dishes (d :: rest) date ai_result userSel userWhy = none)
    ∧ (∀ menus : List (String × CalendarDayItems),
        (∃ p ∈ menus, ∃ item ∈ p.2.diet_elements.members,
            item.get_selected_option = none) →
        history_choices menus = none) := by
  constructor
  · intro d rest date ai_result userSel userWhy ai i hlookup hai hsel hall
    have hpos : position (fun x => x.dish.id == selected_dish_id d)
        d.options_view = none :=
      position_eq_none (fun o ho => beq_eq_false_iff_ne.mpr (hall o ho))
    simp only [select_dishes, hlookup]
    have hproc : process_dish_item d ai (userSel d.id) (userWhy d.id) date = none := by
      rw [process_dish_item, hai, hsel]
      simp [hpos]
    rw [hproc]
  · intro menus h
    induction menus with
    | nil => obtain ⟨p, hp, _⟩ := h; exact absurd hp (List.not_mem_nil p)
    | cons p rest ih =>
      obtain ⟨q, hq, item, hitem, hnone⟩ := h
      obtain ⟨day, menu⟩ := p
      rcases List.mem_cons.mp hq with rfl | hq
      · simp [history_choices, selected_ai_options_none ⟨item, hitem, hnone⟩]
      · cases hs : selected_ai_options menu.diet_elements.members with
        | none => simp [history_choices, hs]
        | some choices =>
          simp [history_choices, hs, ih ⟨q, hq, item, hitem, hnone⟩]

/-- Witness for C10: at the concrete inputs above both panic sites fire:
`select_dishes` on the target day and the history mapping of
`select_dish`. -/
theorem workflow_panics_witness :
    select_dishes [c10_item] 0 c10_ai (fun _ => 0) (fun _ => "") = none
    ∧ history_choices [("yesterday", c10_menu)] = none :=
  ⟨workflow_panics_without_selected_option.1 c10_item [] 0 c10_ai
      (fun _ => 0) (fun _ => "") ⟨"A", "only choice", []⟩ 0 rfl rfl rfl (by decide),
   workflow_panics_without_selected_option.2 [("yesterday", c10_menu)]
      ⟨("yesterday", c10_menu), List.mem_cons_self _ _, c10_item,
        List.mem_cons_self _ _, rfl⟩⟩

/-! ## C1 and C2: what gets recorded for one dish item -/

/-- Index-level characterization of a successful `process_dish_item` run:
the oracle's option and the currently-selected option were both resolved to
positions among the enabled options, the user's index is in range, an
adjustment is recorded iff the user's index differs from the oracle's, and
a menu change is recorded iff the user's index differs from the
currently-selected one. -/
theorem process_dish_item_ok {d : DishItem} {ai : ResponseItem} {sel : Nat}
    {expl : String} {date : NaiveDate} {adj : Option UserAdjustment}
    {chg : Option ChangeMenuItem}
    (h : process_dish_item d ai sel expl date = some (adj, chg)) :
    ∃ (ai_selected current : Nat) (hs : sel < d.options_view.length)
      (hai_lt : ai_selected < d.options_view.length)
      (hcur_lt : current < d.options_view.length),
      position (fun x => x.dish.id == ai.dish_id) d.options_view = some ai_selected
      ∧ position (fun x => x.dish.id == selected_dish_id d) d.options_view
          = some current
      ∧ adj = (if sel = ai_selected then none
          else some { «from» := (d.options_view.get ⟨ai_selected, hai_lt⟩).name,
                      «to» := (d.options_view.get ⟨sel, hs⟩).name,
                      reason := if expl = "" then none else some expl,
                      date := date })
      ∧ chg = (if sel = current then none
          else some { dish := (d.options_view.get ⟨sel, hs⟩).dish.id,
                      dish_item := d.id }) := by
  unfold process_dish_item at h
  split at h
  · exact absurd h (by simp)
  rename_i ai_selected hai
  obtain ⟨hai_lt, pai⟩ := position_eq_some hai
  split at h
  · exact absurd h (by simp)
  rename_i adj0 hadj
  split at h
  · exact absurd h (by simp)
  rename_i current hcur
  obtain ⟨hcur_lt, pcur⟩ := position_eq_some hcur
  have hadj_fact : ∃ hs0 : (sel = ai_selected ∨ sel < d.options_view.length),
      adj0 = (if hsel : sel = ai_selected then none
        else some { «from» := (d.options_view.get ⟨ai_selected, hai_lt⟩).name,
                    «to» := (d.options_view.get ⟨sel,
                        hs0.resolve_left hsel⟩).name,
                    reason := if expl = "" then none else some expl,
                    date := date }) := by
    by_cases hsel : sel = ai_selected
    · rw [if_neg (not_not_intro hsel)] at hadj
      injection hadj with hadj
      exact ⟨Or.inl hsel, by rw [dif_pos hsel, ← hadj]⟩
    · rw [if_pos hsel] at hadj
      cases hget : d.options_view[sel]? with
      | none => rw [hget] at hadj; exact absurd hadj (by simp)
      | some chosen =>
        rw [hget, List.getElem?_eq_getElem hai_lt] at hadj
        injection hadj with hadj
        have hs : sel < d.options_view.length := (List.getElem?_eq_some.mp hget).1
        have hchosen : chosen = d.options_view.get ⟨sel, hs⟩ := by
          obtain ⟨hlt, hv⟩ := List.getElem?_eq_some.mp hget
          simpa [List.get_eq_getElem] using hv.symm
        refine ⟨Or.inr hs, ?_⟩
        rw [dif_neg hsel, ← hadj, hchosen]
        rfl
  obtain ⟨hs0, hadj0⟩ := hadj_fact
  by_cases hc : sel = current
  · rw [if_neg (not_not_intro hc)] at h
    injection h with h
    injection h with h1 h2
    have hs : sel < d.options_view.length := hc ▸ hcur_lt
    refine ⟨ai_selected, current, hs, hai_lt, hcur_lt, hai, hcur, ?_, ?_⟩
    · rw [← h1, hadj0]
      by_cases hsel : sel = ai_selected
      · rw [dif_pos hsel, if_pos hsel]
      · rw [dif_neg hsel, if_neg hsel]
    · rw [← h2, if_pos hc]
  · rw [if_pos hc] at h
    cases hget : d.options_view[sel]? with
    | none => rw [hget] at h; exact absurd h (by simp)
    | some chosen =>
      rw [hget] at h
      injection h with h
      injection h with h1 h2
      have hs : sel < d.options_view.length := (List.getElem?_eq_some.mp hget).1
      have hchosen : chosen = d.options_view.get ⟨sel, hs⟩ := by
        obtain ⟨hlt, hv⟩ := List.getElem?_eq_some.mp hget
        simpa [List.get_eq_getElem] using hv.symm
      refine ⟨ai_selected, current, hs, hai_lt, hcur_lt, hai, hcur, ?_, ?_⟩
      · rw [← h1, hadj0]
        by_cases hsel : sel = ai_selected
        · rw [dif_pos hsel, if_pos hsel]
        · rw [dif_neg hsel, if_neg hsel]
      · rw [← h2, if_neg hc, hchosen]

/-- C1: in a successful `select_dishes` step (dish ids unique within the
item, as the data model guarantees), a Menu Change is recorded if and only
if the user's final choice differs from the CURRENTLY-SELECTED option —
the option whose dish id is the dish item's configured default — never
relative to the oracle's recommendation; and whenever the final choice
equals the oracle's recommendation (e.g. accepting recommendation B while
A is selected) no User Adjustment is recorded, even though the Menu Change
is. -/
theorem menu_change_relative_to_selected
    (d : DishItem) (ai : ResponseItem) (sel : Nat) (expl : String)
    (date : NaiveDate) (adj : Option UserAdjustment) (chg : Option ChangeMenuItem)
    (hnodup : (d.options.map (fun o => o.dish.id)).Nodup)
    (h : process_dish_item d ai sel expl date = some (adj, chg)) :
    ∃ hs : sel < d.options_view.length,
      (chg = if (d.options_view.get ⟨sel, hs⟩).dish.id = selected_dish_id d
          then none
          else some { dish := (d.options_view.get ⟨sel, hs⟩).dish.id,
                      dish_item := d.id })
      ∧ ((d.options_view.get ⟨sel, hs⟩).dish.id = ai.dish_id → adj = none) := by
  obtain ⟨ai_selected, current, hs, hai_lt, hcur_lt, hai, hcur, hadj, hchg⟩ :=
    process_dish_item_ok h
  have hv := options_view_ids_nodup d hnodup
  obtain ⟨hai_lt', pai⟩ := position_eq_some hai
  obtain ⟨hcur_lt', pcur⟩ := position_eq_some hcur
  have pai' : (d.options_view.get ⟨ai_selected, hai_lt⟩).dish.id = ai.dish_id :=
    eq_of_beq pai
  have pcur' : (d.options_view.get ⟨current, hcur_lt⟩).dish.id = selected_dish_id d :=
    eq_of_beq pcur
  refine ⟨hs, ?_, ?_⟩
  · by_cases hid : (d.options_view.get ⟨sel, hs⟩).dish.id = selected_dish_id d
    · have hsc : sel = current :=
        dish_id_inj hv hs hcur_lt (by rw [hid]; exact pcur'.symm)
      rw [hchg, if_pos hsc, if_pos hid]
    · have hne : sel ≠ current := by
        intro hh
        have hfin : (⟨sel, hs⟩ : Fin d.options_view.length) = ⟨current, hcur_lt⟩ :=
          Fin.ext hh
        exact hid (by rw [hfin]; exact pcur')
      rw [hchg, if_neg hne, if_neg hid]
  · intro hca
    have hsa : sel = ai_selected :=
      dish_id_inj hv hs hai_lt (by rw [hca]; exact pai'.symm)
    rw [hadj, if_pos hsa]

/-- C2: in a successful `select_dishes` step (dish ids unique within the
item), a User Adjustment is recorded if and only if the user's final
choice differs from the oracle's recommended option, with `from` the
oracle's option name, `to` the chosen option name, the reason absent
exactly when the free-text answer was empty, and the processed day as the
date; when the final choice equals the recommendation no adjustment is
recorded, whatever the Menu Change outcome. -/
theorem user_adjustment_relative_to_oracle
    (d : DishItem) (ai : ResponseItem) (sel : Nat) (expl : String)
    (date : NaiveDate) (adj : Option UserAdjustment) (chg : Option ChangeMenuItem)
    (hnodup : (d.options.map (fun o => o.dish.id)).Nodup)
    (h : process_dish_item d ai sel expl date = some (adj, chg)) :
    ∃ (hs : sel < d.options_view.length) (orec : MenuDietOption),
      orec ∈ d.options_view ∧ orec.dish.id = ai.dish_id ∧
      adj = (if (d.options_view.get ⟨sel, hs⟩).dish.id = ai.dish_id
          then none
          else some { «from» := orec.name,
                      «to» := (d.options_view.get ⟨sel, hs⟩).name,
                      reason := if expl = "" then none else some expl,
                      date := date }) := by
  obtain ⟨ai_selected, current, hs, hai_lt, hcur_lt, hai, hcur, hadj, hchg⟩ :=
    process_dish_item_ok h
  have hv := options_view_ids_nodup d hnodup
  obtain ⟨hai_lt', pai⟩ := position_eq_some hai
  have pai' : (d.options_view.get ⟨ai_selected, hai_lt⟩).dish.id = ai.dish_id :=
    eq_of_beq pai
  refine ⟨hs, d.options_view.get ⟨ai_selected, hai_lt⟩,
    List.get_mem _ _ _, pai', ?_⟩
  by_cases hca : (d.options_view.get ⟨sel, hs⟩).dish.id = ai.dish_id
  · have hsa : sel = ai_selected :=
      dish_id_inj hv hs hai_lt (by rw [hca]; exact pai'.symm)
    rw [hadj, if_pos hsa, if_pos hca]
  · have hne : sel ≠ ai_selected := by
      intro hh
      have hfin : (⟨sel, hs⟩ : Fin d.options_view.length) = ⟨ai_selected, hai_lt⟩ :=
        Fin.ext hh
      exact hca (by rw [hfin]; exact pai')
    rw [hadj, if_neg hne, if_neg hca]

/-- Witness for C1: the user accepts the oracle's B while A is currently
selected — a Menu Change for B is recorded and no User Adjustment is. -/
theorem menu_change_relative_to_selected_witness :
    ∃ hs : 1 < w1_item.options_view.length,
      ((some { dish := "B", dish_item := "item-1" } : Option ChangeMenuItem) =
          if (w1_item.options_view.get ⟨1, hs⟩).dish.id = selected_dish_id w1_item
          then none
          else some { dish := (w1_item.options_view.get ⟨1, hs⟩).dish.id,
                      dish_item := w1_item.id })
      ∧ ((w1_item.options_view.get ⟨1, hs⟩).dish.id = w1_ai.dish_id →
          (none : Option UserAdjustment) = none) :=
  menu_change_relative_to_selected w1_item w1_ai 1 "" 0 none
    (some { dish := "B", dish_item := "item-1" }) (by decide) (by decide)

/-- Witness for C2: the user overrides the oracle's B back to the
currently-selected A with reason "prefer A" — a User Adjustment
{from: Meal B, to: Meal A} is recorded (and no Menu Change is). -/
theorem user_adjustment_relative_to_oracle_witness :
    ∃ (hs : 0 < w1_item.options_view.length) (orec : MenuDietOption),
      orec ∈ w1_item.options_view ∧ orec.dish.id = w1_ai.dish_id ∧
      (some { «from» := "Meal B", «to» := "Meal A",
              reason := some "prefer A", date := (0 : Int) }
          : Option UserAdjustment) =
        (if (w1_item.options_view.get ⟨0, hs⟩).dish.id = w1_ai.dish_id
         then none
         else some { «from» := orec.name,
                     «to» := (w1_item.options_view.get ⟨0, hs⟩).name,
                     reason := if "prefer A" = "" then none else some "prefer A",
                     date := (0 : Int) }) :=
  user_adjustment_relative_to_oracle w1_item w1_ai 0 "prefer A" 0
    (some { «from» := "Meal B", «to» := "Meal A",
            reason := some "prefer A", date := 0 }) none (by decide) (by decide)

/-- Witness for C7 (amended): the enabled option of `c7_item` is in the
view, and the theorem confirms its enabled flag. -/
theorem options_view_sublist_enabled_witness :
    c7_option.enabled = true :=
  (options_view_sublist_enabled c7_item).2 c7_option (by decide)

/-- Witness for C6: a concrete day 10 run in which the user accepts the
oracle's B (a menu change is recorded) but DECLINES both confirmation
dialogs — the workflow still completes and the stored date is 10 + 1. -/
theorem select_dishes_for_day_advances_witness :
    (⟨[], some 11, none⟩ : Preferences).last_day_selected = some ((10 : Int) + 1) :=
  select_dishes_for_day_advances ⟨[], none, none⟩ 10 c6_diets
    (Except.ok c6_day) (Except.ok []) (fun _ => Except.ok c6_ai)
    (fun _ => 1) (fun _ => "") (Except.ok false) (Except.ok false)
    (Except.ok ()) ⟨[], some 11, none⟩ (by rfl)

end Powermeal
